import Mathlib

/-!
Shallow embedding of the buffer pool manager in
src/src/buffer/buffer_pool_manager.cpp (BusTub-style page cache).

The manager's state (frame array, page table, free list, replacer, latch)
and the seven public operations are translated line by line from the C++
source.  The disk backend, the clock replacer and the Page class are
external collaborators / repository code whose sources are not included;
they are modelled from the spec's contracts (sections 4.1 and 6).

The mutex latch is modelled by a hold counter plus an event trace so that
lock discipline on each control path is visible in the final state.
-/

namespace BusTub

/-- Modelled from the spec: the invalid sentinel page identity held by an
unoccupied frame (section 3, Frame data model). -/
def INVALID_PAGE_ID : Int := -1

/-- Modelled from the spec: a frame is a fixed-size buffer plus metadata
(resident page id, pin count, dirty flag).  Page content is abstracted to a
single natural number; ResetMemory writes 0. -/
structure Frame where
  page_id : Int := INVALID_PAGE_ID
  data : Nat := 0
  pin_count : Int := 0
  is_dirty : Bool := false

/-- Modelled from the spec: the disk backend (section 6).  AllocatePage
returns fresh identifiers in order; WritePage records the page under its id;
ReadPage returns the most recently written content (0 if never written). -/
structure DiskManager where
  next_page_id : Int := 0
  written : List (Int × Nat) := []

def DiskManager.allocatePage (d : DiskManager) : Int × DiskManager :=
  (d.next_page_id, { d with next_page_id := d.next_page_id + 1 })

def DiskManager.readPage (d : DiskManager) (pid : Int) : Nat :=
  ((d.written.find? (fun e => e.1 == pid)).map (fun e => e.2)).getD 0

def DiskManager.writePage (d : DiskManager) (pid : Int) (v : Nat) : DiskManager :=
  { d with written := (pid, v) :: d.written }

/-- Modelled from the spec: DeallocatePage may be a no-op and must not fail. -/
def DiskManager.deallocatePage (d : DiskManager) (_pid : Int) : DiskManager := d

/-- Modelled from the spec: clear every recency bit (used while the clock
hand advances over frames whose bit was set). -/
def clearBits (l : List (Nat × Bool)) : List (Nat × Bool) :=
  l.map (fun e => (e.1, false))

/-- Modelled from the spec: ClockReplacer::Victim (section 4.1).  Scan the
tracked frames in circular order from the hand (list head); a frame with its
recency bit set has the bit cleared and is passed over; the first frame with
a clear bit is removed and returned; none if nothing is tracked. -/
def clockVictim (l : List (Nat × Bool)) : Option (Nat × List (Nat × Bool)) :=
  match l.dropWhile (fun e => e.2) with
  | f :: rest => some (f.1, rest ++ clearBits (l.takeWhile (fun e => e.2)))
  | [] =>
    match l with
    | [] => none
    | x :: xs => some (x.1, clearBits xs)

/-- Modelled from the spec: ClockReplacer::Pin removes a frame from the
evictable set; no-op if the frame is not tracked. -/
def clockPin (l : List (Nat × Bool)) (f : Nat) : List (Nat × Bool) :=
  l.filter (fun e => e.1 != f)

/-- Modelled from the spec: ClockReplacer::Unpin marks a frame evictable
with its recency bit set; no-op if the frame is already tracked. -/
def clockUnpin (l : List (Nat × Bool)) (f : Nat) : List (Nat × Bool) :=
  if l.any (fun e => e.1 == f) then l else l ++ [(f, true)]

/-- Lookup in the page table (std::unordered_map find). -/
def ptLookup (t : List (Int × Nat)) (pid : Int) : Option Nat :=
  (t.find? (fun e => e.1 == pid)).map (fun e => e.2)

/-- Erase a key from the page table (std::unordered_map erase). -/
def ptErase (t : List (Int × Nat)) (pid : Int) : List (Int × Nat) :=
  t.filter (fun e => e.1 != pid)

/-- Overwriting insert (std::unordered_map operator[] assignment). -/
def ptInsert (t : List (Int × Nat)) (pid : Int) (f : Nat) : List (Int × Nat) :=
  (pid, f) :: ptErase t pid

/-- The buffer pool manager's state: frame array, page table, free list,
clock replacer, disk backend, and the latch modelled as a hold counter plus
an acquire/release event trace (true = lock, false = unlock). -/
structure BufferPoolManager where
  pool_size : Nat
  pages : Nat → Frame
  page_table : List (Int × Nat)
  free_list : List Nat
  replacer : List (Nat × Bool)
  disk : DiskManager
  latch : Nat
  trace : List Bool

namespace BufferPoolManager

/-- latch_.lock() -/
def lock (s : BufferPoolManager) : BufferPoolManager :=
  { s with latch := s.latch + 1, trace := s.trace ++ [true] }

/-- latch_.unlock() -/
def unlock (s : BufferPoolManager) : BufferPoolManager :=
  { s with latch := s.latch - 1, trace := s.trace ++ [false] }

/-- pages_[f], the frame array read. -/
def getFrame (s : BufferPoolManager) (f : Nat) : Frame := s.pages f

/-- Assignment to pages_[f]. -/
def setFrame (s : BufferPoolManager) (f : Nat) (fr : Frame) : BufferPoolManager :=
  { s with pages := Function.update s.pages f fr }

end BufferPoolManager

open BufferPoolManager

/-- The constructor BufferPoolManager::BufferPoolManager: all frames default
initialised, every frame id placed on the free list in order, nothing
tracked by the replacer. -/
def construct (pool_size : Nat) : BufferPoolManager :=
  { pool_size := pool_size
    pages := fun _ => {}
    page_table := []
    free_list := List.range pool_size
    replacer := []
    disk := {}
    latch := 0
    trace := [] }

/-- BufferPoolManager::FetchPageImpl, translated line by line.  Returns the
frame id of the returned Page pointer (none for nullptr) and the post state.
On the pool-exhausted path the source returns without unlocking the latch;
the eviction path writes the dirty victim using the parameter page_id. -/
def fetchPageImpl (s0 : BufferPoolManager) (page_id : Int) :
    Option Nat × BufferPoolManager :=
  let s := lock s0
  match ptLookup s.page_table page_id with
  | some reqFrame =>
    let s := { s with replacer := clockPin s.replacer reqFrame }
    let s := setFrame s reqFrame
      { getFrame s reqFrame with pin_count := (getFrame s reqFrame).pin_count + 1 }
    (some reqFrame, unlock s)
  | none =>
    match s.free_list with
    | reqFrame :: fl =>
      let s := { s with free_list := fl }
      let s := { s with replacer := clockPin s.replacer reqFrame }
      let s := setFrame s reqFrame
        { getFrame s reqFrame with pin_count := (getFrame s reqFrame).pin_count + 1 }
      let s := setFrame s reqFrame { getFrame s reqFrame with data := 0 }
      let s := setFrame s reqFrame
        { getFrame s reqFrame with data := s.disk.readPage page_id }
      let s := setFrame s reqFrame { getFrame s reqFrame with page_id := page_id }
      let s := setFrame s reqFrame { getFrame s reqFrame with is_dirty := false }
      let s := { s with page_table := ptInsert s.page_table page_id reqFrame }
      (some reqFrame, unlock s)
    | [] =>
      match clockVictim s.replacer with
      | none => (none, s)
      | some (reqFrame, rep) =>
        let s := { s with replacer := rep }
        let replacerPage := (getFrame s reqFrame).page_id
        let s :=
          if (getFrame s reqFrame).is_dirty then
            let s := { s with disk := s.disk.writePage page_id (getFrame s reqFrame).data }
            setFrame s reqFrame { getFrame s reqFrame with is_dirty := false }
          else s
        let s := { s with replacer := clockPin s.replacer reqFrame }
        let s := setFrame s reqFrame { getFrame s reqFrame with data := 0 }
        let s := { s with page_table := ptErase s.page_table replacerPage }
        let s := setFrame s reqFrame
          { getFrame s reqFrame with data := s.disk.readPage page_id }
        let s := setFrame s reqFrame
          { getFrame s reqFrame with pin_count := (getFrame s reqFrame).pin_count + 1 }
        let s := setFrame s reqFrame { getFrame s reqFrame with page_id := page_id }
        let s := setFrame s reqFrame { getFrame s reqFrame with is_dirty := false }
        let s := { s with page_table := ptInsert s.page_table page_id reqFrame }
        (some reqFrame, unlock s)

/-- BufferPoolManager::UnpinPageImpl, translated line by line.  The source
returns true when the page is not resident. -/
def unpinPageImpl (s0 : BufferPoolManager) (page_id : Int) (is_dirty : Bool) :
    Bool × BufferPoolManager :=
  let s := lock s0
  match ptLookup s.page_table page_id with
  | none => (true, unlock s)
  | some targetFrame =>
    if (getFrame s targetFrame).pin_count ≤ 0 then
      (false, unlock s)
    else
      let s :=
        if is_dirty then
          setFrame s targetFrame { getFrame s targetFrame with is_dirty := is_dirty }
        else s
      let s := setFrame s targetFrame
        { getFrame s targetFrame with pin_count := (getFrame s targetFrame).pin_count - 1 }
      let s :=
        if (getFrame s targetFrame).pin_count == 0 then
          { s with replacer := clockUnpin s.replacer targetFrame }
        else s
      (true, unlock s)

/-- BufferPoolManager::FlushPageImpl, translated line by line.  The source
never touches the latch. -/
def flushPageImpl (s : BufferPoolManager) (page_id : Int) :
    Bool × BufferPoolManager :=
  match ptLookup s.page_table page_id with
  | some targetFrame =>
    if (getFrame s targetFrame).is_dirty then
      let s := { s with disk := s.disk.writePage page_id (getFrame s targetFrame).data }
      let s := setFrame s targetFrame { getFrame s targetFrame with is_dirty := false }
      (true, s)
    else
      (true, s)
  | none => (false, s)

/-- BufferPoolManager::NewPageImpl, translated line by line.  Returns the
allocated page id with the frame id of the returned pointer.  The free path
takes the back of the free list; the eviction path writes the dirty victim
under the victim's own id. -/
def newPageImpl (s0 : BufferPoolManager) :
    Option (Int × Nat) × BufferPoolManager :=
  let s := lock s0
  match s.free_list.getLast? with
  | some freeFrame =>
    let s := { s with free_list := s.free_list.dropLast }
    let alloc := s.disk.allocatePage
    let pid := alloc.1
    let s := { s with disk := alloc.2 }
    let s := setFrame s freeFrame { getFrame s freeFrame with data := 0 }
    let s := setFrame s freeFrame { getFrame s freeFrame with is_dirty := false }
    let s := setFrame s freeFrame { getFrame s freeFrame with page_id := pid }
    let s := setFrame s freeFrame { getFrame s freeFrame with pin_count := 1 }
    let s := { s with page_table := ptInsert s.page_table pid freeFrame }
    let s := { s with replacer := clockPin s.replacer freeFrame }
    (some (pid, freeFrame), unlock s)
  | none =>
    match clockVictim s.replacer with
    | none => (none, unlock s)
    | some (newCandidFrame, rep) =>
      let s := { s with replacer := rep }
      let evictingPage := (getFrame s newCandidFrame).page_id
      let s :=
        if (getFrame s newCandidFrame).is_dirty then
          { s with disk := s.disk.writePage evictingPage (getFrame s newCandidFrame).data }
        else s
      let s := { s with page_table := ptErase s.page_table evictingPage }
      let alloc := s.disk.allocatePage
      let pid := alloc.1
      let s := { s with disk := alloc.2 }
      let s := setFrame s newCandidFrame { getFrame s newCandidFrame with data := 0 }
      let s := setFrame s newCandidFrame { getFrame s newCandidFrame with is_dirty := false }
      let s := setFrame s newCandidFrame { getFrame s newCandidFrame with pin_count := 1 }
      let s := setFrame s newCandidFrame { getFrame s newCandidFrame with page_id := pid }
      let s := { s with replacer := clockPin s.replacer newCandidFrame }
      let s := { s with page_table := ptInsert s.page_table pid newCandidFrame }
      (some (pid, newCandidFrame), unlock s)

/-- BufferPoolManager::DeletePageImpl, translated line by line.  The
eligibility branch in the source compares the frame's resident page id with
0 rather than testing the pin count; the frame is returned to the free list
without being removed from the replacer and its page_id field is not reset. -/
def deletePageImpl (s0 : BufferPoolManager) (page_id : Int) :
    Bool × BufferPoolManager :=
  let s := lock s0
  match ptLookup s.page_table page_id with
  | some targetFrame =>
    if (getFrame s targetFrame).page_id == 0 then
      let s := { s with disk := s.disk.deallocatePage page_id }
      let s := { s with page_table := ptErase s.page_table page_id }
      let s := setFrame s targetFrame { getFrame s targetFrame with data := 0 }
      let s := setFrame s targetFrame { getFrame s targetFrame with is_dirty := false }
      let s := setFrame s targetFrame { getFrame s targetFrame with pin_count := 0 }
      let s := { s with free_list := s.free_list ++ [targetFrame] }
      (true, unlock s)
    else
      (false, unlock s)
  | none => (true, unlock s)

/-- BufferPoolManager::FlushAllPagesImpl: under one latch acquisition, scan
the frame array in index order and run the FlushPageImpl logic on every
dirty frame's resident page id. -/
def flushAllPagesImpl (s0 : BufferPoolManager) : BufferPoolManager :=
  let s := lock s0
  let s := (List.range s.pool_size).foldl
    (fun acc i =>
      if (getFrame acc i).is_dirty then (flushPageImpl acc (getFrame acc i).page_id).2
      else acc) s
  unlock s

/-- A client writing a value into the buffer of the frame it holds, through
the raw Page pointer returned by fetch/new (the marker write of the
round-trip scenario). -/
def writeThroughHandle (s : BufferPoolManager) (f : Nat) (v : Nat) : BufferPoolManager :=
  setFrame s f { getFrame s f with data := v }

/-- One public operation of the manager, with an arbitrary argument. -/
inductive Step : BufferPoolManager → BufferPoolManager → Prop where
  | fetch (s : BufferPoolManager) (pid : Int) : Step s (fetchPageImpl s pid).2
  | unpin (s : BufferPoolManager) (pid : Int) (d : Bool) : Step s (unpinPageImpl s pid d).2
  | flush (s : BufferPoolManager) (pid : Int) : Step s (flushPageImpl s pid).2
  | newp (s : BufferPoolManager) : Step s (newPageImpl s).2
  | del (s : BufferPoolManager) (pid : Int) : Step s (deletePageImpl s pid).2
  | flushAll (s : BufferPoolManager) : Step s (flushAllPagesImpl s)

/-- States reachable from construction by any sequence of public operations. -/
def Reachable (s : BufferPoolManager) : Prop :=
  ∃ n, Relation.ReflTransGen Step (construct n) s

/-- Equality of all manager state except the latch event trace. -/
def sameCore (s t : BufferPoolManager) : Prop :=
  s.pool_size = t.pool_size ∧ s.pages = t.pages ∧ s.page_table = t.page_table ∧
  s.free_list = t.free_list ∧ s.replacer = t.replacer ∧ s.disk = t.disk ∧
  s.latch = t.latch

/-! ### Page table lemmas -/

theorem ptLookup_mem {t : List (Int × Nat)} {pid : Int} {f : Nat}
    (h : ptLookup t pid = some f) : (pid, f) ∈ t := by
  unfold ptLookup at h
  obtain ⟨e, hf, he2⟩ := Option.map_eq_some'.mp h
  have he := List.mem_of_find?_eq_some hf
  have hp := List.find?_some hf
  simp only [beq_iff_eq] at hp
  obtain ⟨a, b⟩ := e
  simp only at hp he2
  subst hp; subst he2
  exact he

theorem ptLookup_none {t : List (Int × Nat)} {pid : Int}
    (h : ptLookup t pid = none) : ∀ e ∈ t, e.1 ≠ pid := by
  unfold ptLookup at h
  cases hf : t.find? (fun e => e.1 == pid) with
  | none =>
    intro e he
    have := List.find?_eq_none.mp hf e he
    simpa using this
  | some e => rw [hf] at h; simp at h

theorem mem_ptErase {t : List (Int × Nat)} {pid : Int} {e : Int × Nat} :
    e ∈ ptErase t pid ↔ e ∈ t ∧ e.1 ≠ pid := by
  unfold ptErase
  simp [List.mem_filter]

theorem mem_ptInsert {t : List (Int × Nat)} {pid : Int} {f : Nat} {e : Int × Nat} :
    e ∈ ptInsert t pid f ↔ e = (pid, f) ∨ (e ∈ t ∧ e.1 ≠ pid) := by
  unfold ptInsert
  simp [mem_ptErase]

theorem ptErase_sublist (t : List (Int × Nat)) (pid : Int) :
    List.Sublist (ptErase t pid) t := List.filter_sublist t

theorem not_mem_keys_ptErase (t : List (Int × Nat)) (pid : Int) :
    pid ∉ (ptErase t pid).map (fun e => e.1) := by
  intro h
  obtain ⟨e, he, hk⟩ := List.mem_map.mp h
  exact ((mem_ptErase.mp he).2) hk

theorem ptInsert_keys_nodup {t : List (Int × Nat)} {pid : Int} {f : Nat}
    (h : (t.map (fun e => e.1)).Nodup) :
    ((ptInsert t pid f).map (fun e => e.1)).Nodup := by
  unfold ptInsert
  refine List.nodup_cons.mpr ⟨not_mem_keys_ptErase t pid, ?_⟩
  exact ((ptErase_sublist t pid).map _).nodup h

theorem keys_unique {t : List (Int × Nat)}
    (h : (t.map (fun e => e.1)).Nodup) {k : Int} {f1 f2 : Nat}
    (h1 : (k, f1) ∈ t) (h2 : (k, f2) ∈ t) : f1 = f2 := by
  have := List.inj_on_of_nodup_map h h1 h2 rfl
  exact congrArg Prod.snd this

theorem vals_unique {t : List (Int × Nat)}
    (h : (t.map (fun e => e.2)).Nodup) {k1 k2 : Int} {f : Nat}
    (h1 : (k1, f) ∈ t) (h2 : (k2, f) ∈ t) : k1 = k2 := by
  have := List.inj_on_of_nodup_map h h1 h2 rfl
  exact congrArg Prod.fst this

/-! ### Clock replacer lemmas -/

theorem mem_clockPin {l : List (Nat × Bool)} {f : Nat} {e : Nat × Bool}
    (h : e ∈ clockPin l f) : e ∈ l ∧ e.1 ≠ f := by
  unfold clockPin at h
  have := List.mem_filter.mp h
  simpa using this

theorem clockVictim_eq_none {l : List (Nat × Bool)} :
    clockVictim l = none ↔ l = [] := by
  constructor
  · intro h
    unfold clockVictim at h
    cases hd : l.dropWhile (fun e => e.2) with
    | cons f rest => rw [hd] at h; simp at h
    | nil =>
      rw [hd] at h
      cases l with
      | nil => rfl
      | cons x xs => simp at h
  · intro h; subst h; rfl

/-! ### The state invariant and its preservation -/

/-- Invariant over the mutable core (frame array, page table, free list):
pin counts are non-negative; free-list frames are unpinned and clean; no
table entry points at a free frame; the free list, the table's keys and the
table's values are duplicate-free; each table entry's key equals the page id
stored in the frame it maps to. -/
structure CoreInv (P : Nat → Frame) (T : List (Int × Nat)) (FL : List Nat) : Prop where
  pin_nonneg : ∀ i, 0 ≤ (P i).pin_count
  free_clean : ∀ f ∈ FL, (P f).pin_count = 0 ∧ (P f).is_dirty = false
  table_free : ∀ e ∈ T, e.2 ∉ FL
  free_nodup : FL.Nodup
  vals_nodup : (T.map (fun e => e.2)).Nodup
  keys_nodup : (T.map (fun e => e.1)).Nodup
  table_meta : ∀ e ∈ T, (P e.2).page_id = e.1

/-- The invariant of a manager state. -/
def Inv (s : BufferPoolManager) : Prop :=
  CoreInv s.pages s.page_table s.free_list

theorem inv_construct (n : Nat) : Inv (construct n) := by
  refine ⟨?_, ?_, ?_, ?_, ?_, ?_, ?_⟩ <;>
    simp [construct, List.nodup_range]

/-- Updating a frame that some table entry maps to, keeping its page id and
a non-negative pin count, preserves the invariant. -/
theorem core_update_resident {P T FL} (h : CoreInv P T FL) {pid0 : Int} {F : Nat}
    (hmem : (pid0, F) ∈ T) (fr : Frame)
    (hid : fr.page_id = (P F).page_id) (hpin : 0 ≤ fr.pin_count) :
    CoreInv (Function.update P F fr) T FL := by
  have hFfree : F ∉ FL := h.table_free (pid0, F) hmem
  refine ⟨?_, ?_, h.table_free, h.free_nodup, h.vals_nodup, h.keys_nodup, ?_⟩
  · intro i
    rcases eq_or_ne i F with rfl | hne
    · simpa using hpin
    · simpa [Function.update_noteq hne] using h.pin_nonneg i
  · intro f hf
    have hne : f ≠ F := fun hEq => hFfree (hEq ▸ hf)
    simpa [Function.update_noteq hne] using h.free_clean f hf
  · intro e he
    rcases eq_or_ne e.2 F with hEq | hne
    · rw [hEq, Function.update_same, hid]
      have := h.table_meta e he
      rwa [hEq] at this
    · rw [Function.update_noteq hne]
      exact h.table_meta e he

/-- Taking a frame off the free list and binding a page into it preserves
the invariant, provided the new frame metadata records the bound page id
and a non-negative pin count. -/
theorem core_take_free_bind {P T FL} (h : CoreInv P T FL) {F : Nat} {fl : List Nat}
    (hsub : ∀ g ∈ fl, g ∈ FL) (hFfree : F ∈ FL) (hFfl : F ∉ fl) (hnd : fl.Nodup)
    {pid : Int} (fr : Frame) (hid : fr.page_id = pid) (hpin : 0 ≤ fr.pin_count) :
    CoreInv (Function.update P F fr) (ptInsert T pid F) fl := by
  have hval_ne : ∀ e ∈ T, e.2 ≠ F := by
    intro e he hEq
    exact h.table_free e he (hEq ▸ hFfree)
  refine ⟨?_, ?_, ?_, hnd, ?_, ptInsert_keys_nodup h.keys_nodup, ?_⟩
  · intro i
    rcases eq_or_ne i F with rfl | hne
    · simpa using hpin
    · simpa [Function.update_noteq hne] using h.pin_nonneg i
  · intro g hg
    have hne : g ≠ F := fun hEq => hFfl (hEq ▸ hg)
    rw [Function.update_noteq hne]
    exact h.free_clean g (hsub g hg)
  · intro e he
    rcases mem_ptInsert.mp he with rfl | ⟨heT, _⟩
    · exact hFfl
    · exact fun hin => h.table_free e heT (hsub _ hin)
  · show (F :: (ptErase T pid).map (fun e => e.2)).Nodup
    refine List.nodup_cons.mpr ⟨?_, ?_⟩
    · intro hmemF
      obtain ⟨e, he, hk⟩ := List.mem_map.mp hmemF
      exact hval_ne e (mem_ptErase.mp he).1 hk
    · exact ((ptErase_sublist T pid).map _).nodup h.vals_nodup
  · intro e he
    rcases mem_ptInsert.mp he with rfl | ⟨heT, _⟩
    · rw [Function.update_same]
      exact hid
    · rw [Function.update_noteq (hval_ne e heT)]
      exact h.table_meta e heT

/-- Rebinding an eviction victim (empty free list): the victim's resident
page id is unbound and the incoming page is bound to the victim frame. -/
theorem core_evict_bind {P T} (h : CoreInv P T []) {F : Nat}
    {pid : Int} (fr : Frame) (hid : fr.page_id = pid) (hpin : 0 ≤ fr.pin_count) :
    CoreInv (Function.update P F fr)
      (ptInsert (ptErase T ((P F).page_id)) pid F) [] := by
  have hval_ne : ∀ e ∈ ptErase T ((P F).page_id), e.2 ≠ F := by
    intro e he hEq
    obtain ⟨heT, hk⟩ := mem_ptErase.mp he
    have := h.table_meta e heT
    rw [hEq] at this
    exact hk this.symm
  refine ⟨?_, ?_, ?_, List.nodup_nil, ?_, ?_, ?_⟩
  · intro i
    rcases eq_or_ne i F with rfl | hne
    · simpa using hpin
    · simpa [Function.update_noteq hne] using h.pin_nonneg i
  · intro g hg; cases hg
  · intro e _ hin; cases hin
  · show (F :: (ptErase (ptErase T ((P F).page_id)) pid).map (fun e => e.2)).Nodup
    refine List.nodup_cons.mpr ⟨?_, ?_⟩
    · intro hmemF
      obtain ⟨e, he, hk⟩ := List.mem_map.mp hmemF
      exact hval_ne e (mem_ptErase.mp he).1 hk
    · exact ((ptErase_sublist _ pid).map _).nodup
        (((ptErase_sublist T _).map _).nodup h.vals_nodup)
  · exact ptInsert_keys_nodup (((ptErase_sublist T _).map _).nodup h.keys_nodup)
  · intro e he
    rcases mem_ptInsert.mp he with rfl | ⟨heE, _⟩
    · rw [Function.update_same]
      exact hid
    · rw [Function.update_noteq (hval_ne e heE)]
      exact h.table_meta e (mem_ptErase.mp heE).1

/-- Deleting a resident page: its entry is erased, the frame is reset to an
unpinned clean frame and appended to the free list. -/
theorem core_delete {P T FL} (h : CoreInv P T FL) {pid : Int} {F : Nat}
    (hmem : (pid, F) ∈ T) (fr : Frame)
    (hpin0 : fr.pin_count = 0) (hdirty : fr.is_dirty = false) :
    CoreInv (Function.update P F fr) (ptErase T pid) (FL ++ [F]) := by
  have hFfree : F ∉ FL := h.table_free (pid, F) hmem
  have hval_ne : ∀ e ∈ ptErase T pid, e.2 ≠ F := by
    intro e he hEq
    obtain ⟨heT, hk⟩ := mem_ptErase.mp he
    have : e.1 = pid := by
      refine vals_unique h.vals_nodup ?_ hmem
      obtain ⟨a, b⟩ := e
      simp only at hEq
      rw [hEq] at heT
      exact heT
    exact hk this
  refine ⟨?_, ?_, ?_, ?_, ?_, ?_, ?_⟩
  · intro i
    rcases eq_or_ne i F with rfl | hne
    · rw [Function.update_same, hpin0]
    · simpa [Function.update_noteq hne] using h.pin_nonneg i
  · intro g hg
    rcases List.mem_append.mp hg with hgFL | hgF
    · have hne : g ≠ F := fun hEq => hFfree (hEq ▸ hgFL)
      rw [Function.update_noteq hne]
      exact h.free_clean g hgFL
    · have : g = F := by simpa using hgF
      subst this
      rw [Function.update_same]
      exact ⟨hpin0, hdirty⟩
  · intro e he hin
    obtain ⟨heT, _⟩ := mem_ptErase.mp he
    rcases List.mem_append.mp hin with hFL | hF
    · exact h.table_free e heT hFL
    · exact hval_ne e he (by simpa using hF)
  · refine List.nodup_append.mpr ⟨h.free_nodup, List.nodup_singleton F, ?_⟩
    intro g hg hg2
    have : g = F := by simpa using hg2
    exact hFfree (this ▸ hg)
  · exact ((ptErase_sublist T pid).map _).nodup h.vals_nodup
  · exact ((ptErase_sublist T pid).map _).nodup h.keys_nodup
  · intro e he
    rw [Function.update_noteq (hval_ne e he)]
    exact h.table_meta e (mem_ptErase.mp he).1

theorem inv_unpin {s : BufferPoolManager} (h : Inv s) (pid : Int) (d : Bool) :
    Inv (unpinPageImpl s pid d).2 := by
  unfold Inv at h ⊢
  simp only [unpinPageImpl, BufferPoolManager.lock, BufferPoolManager.unlock,
    BufferPoolManager.setFrame, BufferPoolManager.getFrame]
  cases hpt : ptLookup s.page_table pid with
  | none => simpa only [hpt] using h
  | some F =>
    have hmem := ptLookup_mem hpt
    simp only [hpt]
    split
    · exact h
    · rename_i hgt
      have hpin : (0:Int) ≤ (s.pages F).pin_count - 1 := by omega
      split <;> split <;>
        simp only [Function.update_same, Function.update_idem] <;>
        exact core_update_resident h hmem _ rfl hpin

theorem inv_flush {s : BufferPoolManager} (h : Inv s) (pid : Int) :
    Inv (flushPageImpl s pid).2 := by
  unfold Inv at h ⊢
  simp only [flushPageImpl, BufferPoolManager.setFrame, BufferPoolManager.getFrame]
  cases hpt : ptLookup s.page_table pid with
  | none => simpa only [hpt] using h
  | some F =>
    have hmem := ptLookup_mem hpt
    simp only [hpt]
    split
    · exact core_update_resident h hmem _ rfl (h.pin_nonneg F)
    · exact h

theorem inv_delete {s : BufferPoolManager} (h : Inv s) (pid : Int) :
    Inv (deletePageImpl s pid).2 := by
  unfold Inv at h ⊢
  simp only [deletePageImpl, BufferPoolManager.lock, BufferPoolManager.unlock,
    BufferPoolManager.setFrame, BufferPoolManager.getFrame]
  cases hpt : ptLookup s.page_table pid with
  | none => simpa only [hpt] using h
  | some F =>
    have hmem := ptLookup_mem hpt
    simp only [hpt]
    split
    · simp only [Function.update_same, Function.update_idem]
      exact core_delete h hmem _ rfl rfl
    · exact h

theorem inv_fetch {s : BufferPoolManager} (h : Inv s) (pid : Int) :
    Inv (fetchPageImpl s pid).2 := by
  unfold Inv at h ⊢
  simp only [fetchPageImpl, BufferPoolManager.lock, BufferPoolManager.unlock,
    BufferPoolManager.setFrame, BufferPoolManager.getFrame]
  cases hpt : ptLookup s.page_table pid with
  | some F =>
    have hmem := ptLookup_mem hpt
    simp only [hpt, Function.update_same, Function.update_idem]
    refine core_update_resident h hmem _ rfl ?_
    show (0:Int) ≤ (s.pages F).pin_count + 1
    have := h.pin_nonneg F
    omega
  | none =>
    simp only [hpt]
    cases hfl : s.free_list with
    | cons F fl =>
      simp only [Function.update_same, Function.update_idem]
      have hnd := h.free_nodup
      rw [hfl] at hnd
      refine core_take_free_bind h ?_ ?_ ?_ ?_ _ rfl ?_
      · intro g hg
        rw [hfl]
        exact List.mem_cons_of_mem _ hg
      · rw [hfl]
        exact List.mem_cons_self _ _
      · exact (List.nodup_cons.mp hnd).1
      · exact (List.nodup_cons.mp hnd).2
      · show (0:Int) ≤ (s.pages F).pin_count + 1
        have := h.pin_nonneg F
        omega
    | nil =>
      rw [hfl] at h
      cases hcv : clockVictim s.replacer with
      | none => simpa only [hcv] using h
      | some pr =>
        obtain ⟨F, rep⟩ := pr
        simp only [hcv]
        have hp1 : (0:Int) ≤ (s.pages F).pin_count + 1 := by
          have := h.pin_nonneg F
          omega
        split <;>
          simp only [Function.update_same, Function.update_idem] <;>
          exact core_evict_bind h _ rfl hp1

theorem inv_new {s : BufferPoolManager} (h : Inv s) : Inv (newPageImpl s).2 := by
  unfold Inv at h ⊢
  simp only [newPageImpl, BufferPoolManager.lock, BufferPoolManager.unlock,
    BufferPoolManager.setFrame, BufferPoolManager.getFrame, DiskManager.allocatePage]
  cases hgl : s.free_list.getLast? with
  | some F =>
    simp only [hgl, Function.update_same, Function.update_idem]
    have hsplit : s.free_list.dropLast ++ [F] = s.free_list :=
      List.dropLast_append_getLast? F (Option.mem_def.mpr hgl)
    have hnd := h.free_nodup
    rw [← hsplit] at hnd
    obtain ⟨hnd1, _, hdisj⟩ := List.nodup_append.mp hnd
    refine core_take_free_bind h ?_ ?_ ?_ hnd1 _ rfl ?_
    · intro g hg
      rw [← hsplit]
      exact List.mem_append_left _ hg
    · rw [← hsplit]
      exact List.mem_append_right _ (List.mem_singleton_self F)
    · intro hF
      exact hdisj hF (List.mem_singleton_self F)
    · show (0:Int) ≤ 1
      omega
  | none =>
    simp only [hgl]
    have hfl : s.free_list = [] := List.getLast?_eq_none_iff.mp hgl
    rw [hfl] at h
    cases hcv : clockVictim s.replacer with
    | none => simpa only [hcv, hfl] using h
    | some pr =>
      obtain ⟨F, rep⟩ := pr
      simp only [hcv, hfl]
      have hp1 : (0:Int) ≤ 1 := by omega
      split <;>
        simp only [Function.update_same, Function.update_idem] <;>
        exact core_evict_bind h _ rfl hp1

theorem inv_flushAll_go (l : List Nat) {t : BufferPoolManager} (ht : Inv t) :
    Inv (l.foldl (fun acc i =>
      if (BufferPoolManager.getFrame acc i).is_dirty then
        (flushPageImpl acc (BufferPoolManager.getFrame acc i).page_id).2
      else acc) t) := by
  induction l generalizing t with
  | nil => exact ht
  | cons x xs ih =>
    simp only [List.foldl_cons]
    apply ih
    split
    · exact inv_flush ht _
    · exact ht

theorem inv_flushAll {s : BufferPoolManager} (h : Inv s) :
    Inv (flushAllPagesImpl s) := by
  unfold Inv at h ⊢
  simp only [flushAllPagesImpl, BufferPoolManager.lock, BufferPoolManager.unlock]
  exact inv_flushAll_go _ h

theorem inv_step {s t : BufferPoolManager} (h : Inv s) (hst : Step s t) : Inv t := by
  cases hst with
  | fetch pid => exact inv_fetch h pid
  | unpin pid d => exact inv_unpin h pid d
  | flush pid => exact inv_flush h pid
  | newp => exact inv_new h
  | del pid => exact inv_delete h pid
  | flushAll => exact inv_flushAll h

/-- Every state reachable by public operations satisfies the invariant. -/
theorem inv_reachable {s : BufferPoolManager} (h : Reachable s) : Inv s := by
  obtain ⟨n, hr⟩ := h
  induction hr with
  | refl => exact inv_construct n
  | tail _ hstep ih => exact inv_step ih hstep

/-! ### Concrete scenario states used by the claim theorems -/

/-- One-frame pool after FetchPage(5): page 5 resident in frame 0, pinned. -/
def sFetched5 : BufferPoolManager := (fetchPageImpl (construct 1) 5).2

/-- ... after the client writes the marker 42 through the returned handle. -/
def sMarked : BufferPoolManager := writeThroughHandle sFetched5 0 42

/-- ... after UnpinPage(5, true): frame 0 dirty and evictable. -/
def sDirtyEvictable : BufferPoolManager := (unpinPageImpl sMarked 5 true).2

/-- ... after FetchPage(9), which evicts page 5 from frame 0. -/
def sAfterEvict : BufferPoolManager := (fetchPageImpl sDirtyEvictable 9).2

/-- ... after UnpinPage(9, false): frame 0 evictable again. -/
def sEvictable9 : BufferPoolManager := (unpinPageImpl sAfterEvict 9 false).2

/-- One-frame pool with page 5 resident and unpinned (pin count 0). -/
def sResidentUnpinned : BufferPoolManager :=
  (unpinPageImpl (fetchPageImpl (construct 1) 5).2 5 false).2

/-- One-frame pool with page id 0 resident and pinned (pin count 1). -/
def sPinnedZero : BufferPoolManager := (fetchPageImpl (construct 1) 0).2

/-- One-frame pool with every frame pinned (after NewPage). -/
def sAllPinned : BufferPoolManager := (newPageImpl (construct 1)).2

/-- One-frame pool with page 5 resident, unpinned and dirty. -/
def sDirtyResident : BufferPoolManager :=
  (unpinPageImpl (fetchPageImpl (construct 1) 5).2 5 true).2

/-! ### Claim theorems -/

/-- C1: the claim says the eviction path of FetchPage writes a dirty victim
back under the victim's own resident page id, never under the id being
fetched.  Evaluating the code on a one-frame pool holding dirty page 5
(content 42) while fetching page 9: the single disk write that occurs is
recorded under id 9, the fetched id, with the victim's content, and nothing
is ever written under the victim's own id 5 (line 105 passes page_id, not
replacerPage, to WritePage). -/
theorem C1_eviction_writes_under_fetched_id :
    (fetchPageImpl sDirtyEvictable 9).2.disk.written = [(9, 42)] ∧
    (∀ v, ((5:Int), v) ∉ (fetchPageImpl sDirtyEvictable 9).2.disk.written) ∧
    ptLookup (fetchPageImpl sDirtyEvictable 9).2.page_table 5 = none := by
  refine ⟨by decide, ?_, by decide⟩
  intro v hv
  rw [show (fetchPageImpl sDirtyEvictable 9).2.disk.written = [(9, 42)] from by decide] at hv
  simp at hv

/-- C2: the claim says DeletePage fails and changes nothing when the pin
count is positive, succeeds (deallocating, unbinding, resetting, freeing)
when the pin count is zero, and branches solely on the pin count.
Evaluating the code: deleting resident page 5 whose pin count is 0 returns
false and leaves it bound, while deleting resident page 0 whose pin count
is 1 returns true and moves its frame to the free list, because line 289
tests GetPageId() == 0 instead of the pin count. -/
theorem C2_delete_branches_on_page_id_not_pin :
    ((sResidentUnpinned.pages 0).pin_count = 0 ∧
      (deletePageImpl sResidentUnpinned 5).1 = false ∧
      ptLookup (deletePageImpl sResidentUnpinned 5).2.page_table 5 = some 0) ∧
    ((sPinnedZero.pages 0).pin_count = 1 ∧
      (deletePageImpl sPinnedZero 0).1 = true ∧
      ptLookup (deletePageImpl sPinnedZero 0).2.page_table 0 = none ∧
      (deletePageImpl sPinnedZero 0).2.free_list = [0]) := by
  decide

/-- C3 counterexample: the claim says UnpinPage on a non-resident page id
returns a false result; on the empty one-frame pool, UnpinPage(3, false)
returns true. -/
theorem C3_counterexample_unpin_nonresident_not_false :
    ¬ ((unpinPageImpl (construct 1) 3 false).1 = false) := by
  decide

/-- C3 amended: for every page id that is not resident, UnpinPage returns
true (the source reports the missing page as a trivial success), for either
value of is_dirty, and changes no state. -/
theorem C3_unpin_nonresident_returns_true_no_change
    (s : BufferPoolManager) (pid : Int) (d : Bool)
    (h : ptLookup s.page_table pid = none) :
    (unpinPageImpl s pid d).1 = true ∧
      sameCore s (unpinPageImpl s pid d).2 := by
  have hres : unpinPageImpl s pid d =
      (true, BufferPoolManager.unlock (BufferPoolManager.lock s)) := by
    unfold unpinPageImpl
    simp only [BufferPoolManager.lock, h]
  rw [hres]
  refine ⟨rfl, rfl, rfl, rfl, rfl, rfl, rfl, ?_⟩
  show s.latch = s.latch + 1 - 1
  omega

/-- C3 witness: the amended statement at the concrete non-resident id 3. -/
theorem C3_unpin_nonresident_witness :
    (unpinPageImpl (construct 1) 3 false).1 = true ∧
      sameCore (construct 1) (unpinPageImpl (construct 1) 3 false).2 :=
  C3_unpin_nonresident_returns_true_no_change (construct 1) 3 false (by decide)

/-- C4: the claim says the round-trip marker written before eviction is
present after re-fetching the page.  Evaluating the code on a one-frame
pool: fetch 5, write marker 42, unpin dirty, fetch 9 (evicts frame 0),
unpin 9, fetch 5 again - the returned frame holds 0, not the marker 42,
because the eviction write-back went to id 9 instead of id 5. -/
theorem C4_marker_lost_after_fetch_eviction :
    (fetchPageImpl sEvictable9 5).1 = some 0 ∧
    ((fetchPageImpl sEvictable9 5).2.pages 0).data = 0 ∧
    ((fetchPageImpl sEvictable9 5).2.pages 0).data ≠ 42 := by
  decide

/-- C5: the claim says every frame is in exactly one of free list / pinned /
evictable in every reachable state.  The reachable state after
FetchPage(0); UnpinPage(0, false); DeletePage(0) on a one-frame pool has
frame 0 simultaneously on the free list and tracked by the replacer,
because DeletePageImpl never removes the victim from the replacer. -/
theorem C5_frame_on_free_list_and_in_replacer :
    Reachable
      (deletePageImpl (unpinPageImpl (fetchPageImpl (construct 1) 0).2 0 false).2 0).2 ∧
    (0:Nat) ∈
      (deletePageImpl (unpinPageImpl (fetchPageImpl (construct 1) 0).2 0 false).2 0).2.free_list ∧
    ((0:Nat), true) ∈
      (deletePageImpl (unpinPageImpl (fetchPageImpl (construct 1) 0).2 0 false).2 0).2.replacer := by
  refine ⟨⟨1, ?_⟩, by decide, by decide⟩
  exact Relation.ReflTransGen.tail
    (Relation.ReflTransGen.tail
      (Relation.ReflTransGen.tail Relation.ReflTransGen.refl
        (Step.fetch (construct 1) 0))
      (Step.unpin (fetchPageImpl (construct 1) 0).2 0 false))
    (Step.del (unpinPageImpl (fetchPageImpl (construct 1) 0).2 0 false).2 0)

/-- C6: the claim says every public operation acquires the latch and
releases it before returning on every path.  Evaluating the code: FetchPage
on a fully pinned pool returns the null handle with the latch still held
(hold count 1, line 97 returns without unlock), and FlushPage never touches
the latch on any path (no acquisition at all). -/
theorem C6_latch_leaked_and_flush_never_locks :
    (sAllPinned.latch = 0 ∧
      (fetchPageImpl sAllPinned 7).1 = none ∧
      (fetchPageImpl sAllPinned 7).2.latch = 1) ∧
    (∀ s : BufferPoolManager, ∀ pid : Int,
      (flushPageImpl s pid).2.latch = s.latch ∧
      (flushPageImpl s pid).2.trace = s.trace) := by
  refine ⟨by decide, ?_⟩
  intro s pid
  unfold flushPageImpl
  cases hpt : ptLookup s.page_table pid with
  | none => exact ⟨rfl, rfl⟩
  | some F =>
    simp only [hpt]
    split
    · exact ⟨rfl, rfl⟩
    · exact ⟨rfl, rfl⟩

/-- A fetch miss resolved from the free list returns the popped frame. -/
theorem fetch_fst_free {s : BufferPoolManager} {pid : Int} {F : Nat} {fl : List Nat}
    (h : ptLookup s.page_table pid = none) (hfl : s.free_list = F :: fl) :
    (fetchPageImpl s pid).1 = some F := by
  unfold fetchPageImpl
  simp only [BufferPoolManager.lock, h, hfl]

/-- A fetch miss resolved through the replacer returns a handle. -/
theorem fetch_fst_evict_ne {s : BufferPoolManager} {pid : Int} {F : Nat}
    {rep : List (Nat × Bool)}
    (h : ptLookup s.page_table pid = none) (hfl : s.free_list = [])
    (hcv : clockVictim s.replacer = some (F, rep)) :
    (fetchPageImpl s pid).1 ≠ none := by
  unfold fetchPageImpl
  simp only [BufferPoolManager.lock, h, hfl, hcv]
  simp

/-- A fetch miss with no free frame and no victim returns the null handle. -/
theorem fetch_fst_exhausted {s : BufferPoolManager} {pid : Int}
    (h : ptLookup s.page_table pid = none) (hfl : s.free_list = [])
    (hcv : clockVictim s.replacer = none) :
    (fetchPageImpl s pid).1 = none := by
  unfold fetchPageImpl
  simp only [BufferPoolManager.lock, h, hfl, hcv]

/-- NewPage with a non-empty free list returns a handle. -/
theorem new_fst_free_ne {s : BufferPoolManager} {F : Nat}
    (hgl : s.free_list.getLast? = some F) :
    (newPageImpl s).1 ≠ none := by
  unfold newPageImpl
  simp only [BufferPoolManager.lock, hgl]
  simp

/-- NewPage resolved through the replacer returns a handle. -/
theorem new_fst_evict_ne {s : BufferPoolManager} {F : Nat} {rep : List (Nat × Bool)}
    (hgl : s.free_list.getLast? = none)
    (hcv : clockVictim s.replacer = some (F, rep)) :
    (newPageImpl s).1 ≠ none := by
  unfold newPageImpl
  simp only [BufferPoolManager.lock, hgl, hcv]
  simp

/-- NewPage with no free frame and no victim returns the null handle. -/
theorem new_fst_exhausted {s : BufferPoolManager}
    (hgl : s.free_list.getLast? = none)
    (hcv : clockVictim s.replacer = none) :
    (newPageImpl s).1 = none := by
  unfold newPageImpl
  simp only [BufferPoolManager.lock, hgl, hcv]

/-- C7: FetchPage of a non-resident page, and NewPage, return the null
handle exactly when the free list is empty and the clock replacer yields no
victim; whenever a free or evictable frame exists they return a handle. -/
theorem C7_fetch_new_fail_iff_exhausted (s : BufferPoolManager) (pid : Int)
    (h : ptLookup s.page_table pid = none) :
    ((fetchPageImpl s pid).1 = none ↔
      (s.free_list = [] ∧ clockVictim s.replacer = none)) ∧
    ((newPageImpl s).1 = none ↔
      (s.free_list = [] ∧ clockVictim s.replacer = none)) := by
  constructor
  · constructor
    · intro hnone
      cases hfl : s.free_list with
      | cons F fl =>
        rw [fetch_fst_free h hfl] at hnone
        cases hnone
      | nil =>
        cases hcv : clockVictim s.replacer with
        | none => exact ⟨rfl, rfl⟩
        | some pr =>
          obtain ⟨F, rep⟩ := pr
          exact absurd hnone (fetch_fst_evict_ne h hfl hcv)
    · rintro ⟨hfl, hcv⟩
      exact fetch_fst_exhausted h hfl hcv
  · constructor
    · intro hnone
      cases hgl : s.free_list.getLast? with
      | some F => exact absurd hnone (new_fst_free_ne hgl)
      | none =>
        cases hcv : clockVictim s.replacer with
        | none => exact ⟨List.getLast?_eq_none_iff.mp hgl, rfl⟩
        | some pr =>
          obtain ⟨F, rep⟩ := pr
          exact absurd hnone (new_fst_evict_ne hgl hcv)
    · rintro ⟨hfl, hcv⟩
      exact new_fst_exhausted (List.getLast?_eq_none_iff.mpr hfl) hcv

/-- C7 witness: on a one-frame pool with the single frame pinned, fetching
a non-resident page and NewPage both fail, matching the emptiness of the
free list and of the replacer. -/
theorem C7_exhausted_witness :
    ((fetchPageImpl sAllPinned 7).1 = none ↔
      (sAllPinned.free_list = [] ∧ clockVictim sAllPinned.replacer = none)) ∧
    ((newPageImpl sAllPinned).1 = none ↔
      (sAllPinned.free_list = [] ∧ clockVictim sAllPinned.replacer = none)) :=
  C7_fetch_new_fail_iff_exhausted sAllPinned 7 (by decide)

/-- C8: in every reachable state all pin counts are non-negative, and
UnpinPage on a resident page whose pin count is already zero returns false
and changes no state (besides the balanced latch acquisition). -/
theorem C8_pin_nonneg_and_double_unpin (s : BufferPoolManager) (h : Reachable s) :
    (∀ i, 0 ≤ (s.pages i).pin_count) ∧
    (∀ pid F d, ptLookup s.page_table pid = some F →
      (s.pages F).pin_count = 0 →
      (unpinPageImpl s pid d).1 = false ∧
        sameCore s (unpinPageImpl s pid d).2) := by
  have hInv := inv_reachable h
  refine ⟨hInv.pin_nonneg, ?_⟩
  intro pid F d hpt hpin
  have hres : unpinPageImpl s pid d =
      (false, BufferPoolManager.unlock (BufferPoolManager.lock s)) := by
    unfold unpinPageImpl
    simp only [BufferPoolManager.lock, BufferPoolManager.getFrame, hpt]
    rw [if_pos (show (s.pages F).pin_count ≤ 0 by omega)]
  rw [hres]
  refine ⟨rfl, rfl, rfl, rfl, rfl, rfl, rfl, ?_⟩
  show s.latch = s.latch + 1 - 1
  omega

/-- C8 witness: page 5 resident with pin count zero; a further unpin
returns false and leaves the state unchanged. -/
theorem C8_double_unpin_witness :
    (unpinPageImpl sResidentUnpinned 5 true).1 = false ∧
      sameCore sResidentUnpinned (unpinPageImpl sResidentUnpinned 5 true).2 :=
  (C8_pin_nonneg_and_double_unpin sResidentUnpinned
      ⟨1, Relation.ReflTransGen.tail
        (Relation.ReflTransGen.tail Relation.ReflTransGen.refl
          (Step.fetch (construct 1) 5))
        (Step.unpin (fetchPageImpl (construct 1) 5).2 5 false)⟩).2
    5 0 true (by decide) (by decide)

/-- C9: FlushPage fails exactly on non-resident pages; on a resident dirty
page it writes the frame's buffer to the disk backend under the page's own
id, clears the dirty flag and changes nothing else; on a resident clean
page it is the identity and performs no disk call. -/
theorem C9_flush_page_semantics (s : BufferPoolManager) (pid : Int) :
    (ptLookup s.page_table pid = none → flushPageImpl s pid = (false, s)) ∧
    (∀ F, ptLookup s.page_table pid = some F → (s.pages F).is_dirty = true →
      (flushPageImpl s pid).1 = true ∧
      (flushPageImpl s pid).2.disk = s.disk.writePage pid (s.pages F).data ∧
      (flushPageImpl s pid).2.pages F = { s.pages F with is_dirty := false } ∧
      (∀ g, g ≠ F → (flushPageImpl s pid).2.pages g = s.pages g) ∧
      (flushPageImpl s pid).2.page_table = s.page_table ∧
      (flushPageImpl s pid).2.free_list = s.free_list ∧
      (flushPageImpl s pid).2.replacer = s.replacer ∧
      (flushPageImpl s pid).2.latch = s.latch ∧
      (flushPageImpl s pid).2.trace = s.trace) ∧
    (∀ F, ptLookup s.page_table pid = some F → (s.pages F).is_dirty = false →
      flushPageImpl s pid = (true, s)) := by
  refine ⟨?_, ?_, ?_⟩
  · intro h
    unfold flushPageImpl
    simp only [h]
  · intro F hpt hd
    unfold flushPageImpl
    simp only [hpt, BufferPoolManager.getFrame, BufferPoolManager.setFrame]
    split
    · refine ⟨rfl, rfl, ?_, ?_, rfl, rfl, rfl, rfl, rfl⟩
      · simp only [Function.update_same]
      · intro g hg
        exact Function.update_noteq hg _ _
    · rename_i hcond
      exact absurd hd hcond
  · intro F hpt hd
    unfold flushPageImpl
    simp only [hpt, BufferPoolManager.getFrame]
    split
    · rename_i hcond
      rw [hd] at hcond
      cases hcond
    · rfl

/-- C9 witness: flushing the resident dirty page 5 succeeds and records the
disk write under id 5. -/
theorem C9_flush_dirty_witness :
    (flushPageImpl sDirtyResident 5).1 = true ∧
      (flushPageImpl sDirtyResident 5).2.disk =
        sDirtyResident.disk.writePage 5 (sDirtyResident.pages 0).data := by
  have h := (C9_flush_page_semantics sDirtyResident 5).2.1 0 (by decide) (by decide)
  exact ⟨h.1, h.2.1⟩

/-- C10: in every reachable state every frame on the free list has pin
count zero and a clear dirty flag; consequently a frame taken from the free
list by FetchPage (which only increments the pin count) or by NewPage ends
with pin count exactly one. -/
theorem C10_free_frames_clean_and_pin_one (s : BufferPoolManager) (h : Reachable s) :
    (∀ F ∈ s.free_list, (s.pages F).pin_count = 0 ∧ (s.pages F).is_dirty = false) ∧
    (∀ pid F fl, ptLookup s.page_table pid = none → s.free_list = F :: fl →
      ((fetchPageImpl s pid).2.pages F).pin_count = 1) ∧
    (∀ F, s.free_list.getLast? = some F →
      ((newPageImpl s).2.pages F).pin_count = 1) := by
  have hInv := inv_reachable h
  refine ⟨hInv.free_clean, ?_, ?_⟩
  · intro pid F fl hpt hfl
    have hzero : (s.pages F).pin_count = 0 :=
      (hInv.free_clean F (by rw [hfl]; exact List.mem_cons_self _ _)).1
    unfold fetchPageImpl
    simp only [BufferPoolManager.lock, BufferPoolManager.unlock,
      BufferPoolManager.getFrame, BufferPoolManager.setFrame, hpt, hfl,
      Function.update_same, Function.update_idem]
    show (s.pages F).pin_count + 1 = 1
    omega
  · intro F hgl
    unfold newPageImpl
    simp only [BufferPoolManager.lock, BufferPoolManager.unlock,
      BufferPoolManager.getFrame, BufferPoolManager.setFrame, hgl,
      DiskManager.allocatePage, Function.update_same, Function.update_idem]

/-- C10 witness: on the fresh one-frame pool, fetching page 5 takes frame 0
from the free list and leaves it with pin count exactly one. -/
theorem C10_pin_one_witness :
    ((fetchPageImpl (construct 1) 5).2.pages 0).pin_count = 1 :=
  (C10_free_frames_clean_and_pin_one (construct 1)
      ⟨1, Relation.ReflTransGen.refl⟩).2.1 5 0 [] (by decide) (by decide)

end BusTub
